import Mathlib

/-!
Shallow embedding of the hybrid ranking core of the book recommender
(`src/models/hybrid_recommender.py`, together with its caller `app.py`).

Modelling conventions:
* Python floats are modelled as exact rationals (`ℚ`).
* A pandas cell is either a number or a string (`Cell`); a missing column
  or a Python `None` value is `Option.none`.
* The metadata table (`clean_books.csv` indexed by `isbn13`) is a list of
  `(key, row)` pairs in file order; `pandas.DataFrame.loc` on a duplicated
  index followed by `iloc[0]` selects the first matching row, which is
  `List.find?`.
* The vector store is an external collaborator: a function from a query
  and a fan-out count to a list of `(document, distance)` pairs.
* Per-candidate Python exceptions (`float(...)`/`int(...)` raising
  `ValueError`) are `Except.error`; the `try/except` around the loop body
  turns an error into skipping that candidate.
* Digits are ASCII `0`-`9` (`Char.isDigit`), matching `str.isdigit` on the
  ASCII identifiers this data carries.
-/

namespace HybridRec

/-- A Python value as it appears in a result-record dict. -/
inductive PyVal where
  | vInt (n : ℤ)
  | vRat (q : ℚ)
  | vStr (s : String)
  | vNone
deriving DecidableEq, Repr

/-- A pandas cell: numeric or string. -/
inductive Cell where
  | num (q : ℚ)
  | str (s : String)
deriving DecidableEq, Repr

/-- A document returned by the similarity index: its `metadata` dict.
`none` models an absent key (so `metadata.get(k)` is `None`). -/
structure Doc where
  isbn : Option String
  title : Option String
  authors : Option String
  description : Option String
deriving DecidableEq, Repr

/-- A row of the metadata table (`clean_books.csv`).  Fields the
recommender reads, plus `dominant_tone`/`thumbnail` which are present in
the enriched data but, as the proofs below show, never read by
`recommend`. -/
structure Row where
  simple_category : Option String
  categories : Option String
  average_rating : Option Cell
  ratings_count : Option Cell
  dominant_tone : Option String
  thumbnail : Option String
deriving DecidableEq, Repr

/-- The Metadata Store: `books_metadata` with `isbn13` as index, in file
order (duplicates possible; first occurrence wins on lookup). -/
abbrev Store := List (ℤ × Row)

/-- `isbn in self.books_metadata.index` / `self.books_metadata.loc[isbn]`
followed by `iloc[0]` on a duplicated index: first row whose key matches. -/
def lookup (st : Store) (k : ℤ) : Option Row :=
  (st.find? (fun p => p.1 == k)).map (fun p => p.2)

/-- Numeric value of an ASCII digit. -/
def digitVal (c : Char) : ℕ := c.toNat - 48

/-- `filter(str.isdigit, str(isbn_str))`: the digit characters, in order. -/
def digitsOf (s : String) : List Char := s.data.filter Char.isDigit

/-- Value of a digit string under decimal `int()` parsing (Horner form). -/
def natOfDigits (ds : List Char) : ℕ := ds.foldl (fun n c => 10 * n + digitVal c) 0

/-- Lines 83-85 of `hybrid_recommender.py`:
`isbn_clean = "".join(filter(str.isdigit, str(isbn_str)))` and
`isbn = int(isbn_clean) if isbn_clean else 0`. -/
def normalizeIsbn (s : String) : ℤ :=
  let ds := digitsOf s
  if ds.isEmpty then 0 else (natOfDigits ds : ℤ)

/-- `doc.metadata.get("isbn", "0")` fed to the normalizer. -/
def docKey (d : Doc) : ℤ := normalizeIsbn (d.isbn.getD "0")

/-- Python `int(s)` on a string: optional sign, then decimal digits only
(`int("4.5")` raises). -/
def parseInt? (s : String) : Option ℤ :=
  match s.data with
  | '-' :: rest =>
      if !rest.isEmpty && rest.all Char.isDigit then some (-(natOfDigits rest : ℤ)) else none
  | cs =>
      if !cs.isEmpty && cs.all Char.isDigit then some ((natOfDigits cs : ℤ)) else none

/-- Python `float(s)` on a string, restricted to the decimal core:
optional sign, digits, optional point and fraction digits. -/
def parseRat? (s : String) : Option ℚ :=
  let core : List Char → Option ℚ := fun cs =>
    match cs.splitOn '.' with
    | [I] =>
        if !I.isEmpty && I.all Char.isDigit then some ((natOfDigits I : ℚ)) else none
    | [I, F] =>
        if (!I.isEmpty || !F.isEmpty) && I.all Char.isDigit && F.all Char.isDigit then
          some ((natOfDigits I : ℚ) + (natOfDigits F : ℚ) / (10 : ℚ) ^ F.length)
        else none
    | _ => none
  match s.data with
  | '-' :: rest => (core rest).map Neg.neg
  | cs => core cs

/-- Python `int()` truncates a float toward zero. -/
def ratTrunc (q : ℚ) : ℤ := Int.tdiv q.num (q.den : ℤ)

/-- `float(book_row.get("average_rating", 0))`: missing column defaults to
`0`; a non-numeric string raises `ValueError`. -/
def pyFloatCell : Option Cell → Except String ℚ
  | none => .ok 0
  | some (.num q) => .ok q
  | some (.str s) =>
      match parseRat? s with
      | some q => .ok q
      | none => .error "ValueError"

/-- `int(book_row.get("ratings_count", 0))`. -/
def pyIntCell : Option Cell → Except String ℤ
  | none => .ok 0
  | some (.num q) => .ok (ratTrunc q)
  | some (.str s) =>
      match parseInt? s with
      | some n => .ok n
      | none => .error "ValueError"

/-- Lines 95-97: `category = book_row.get("simple_category")`, falling back
to `book_row.get("categories", "Uncategorized")` when it is `None`. -/
def resolvedCategory (r : Row) : String :=
  r.simple_category.getD (r.categories.getD "Uncategorized")

/-- Python `str.lower()`: character-wise lowercasing (ASCII range on this
data). -/
def pyLower (s : String) : String := ⟨s.data.map Char.toLower⟩

/-- Python truthiness of the optional string filter argument
(`None` and `""` are falsy). -/
def truthy : Option String → Bool
  | none => false
  | some s => !s.isEmpty

/-- A result record: the dict literal built at lines 114-126, as an
association list in the order the keys are written in the source. -/
abbrev Rec := List (String × PyVal)

/-- `r[k]` on a result record (first binding wins, as in a dict). -/
def getKey (r : Rec) (k : String) : Option PyVal :=
  (r.find? (fun p => p.1 == k)).map (fun p => p.2)

/-- `doc.metadata.get(k)`: `None` when absent. -/
def pyOptStr : Option String → PyVal
  | none => .vNone
  | some s => .vStr s

/-- The dict literal appended to `recommendations` (lines 114-126). -/
def mkRec (isbn : ℤ) (d : Doc) (category : String) (rating : ℚ) (rc : ℤ)
    (hybrid : ℚ) : Rec :=
  [("isbn", .vInt isbn),
   ("title", pyOptStr d.title),
   ("authors", pyOptStr d.authors),
   ("description", pyOptStr d.description),
   ("category", .vStr category),
   ("rating", .vRat rating),
   ("ratings_count", .vInt rc),
   ("score", .vRat hybrid),
   ("match_reason", .vStr "Hybrid Match")]

/-- The sort key `lambda x: x["score"]` (always a number on records this
code builds). -/
def scoreOf (r : Rec) : ℚ :=
  match getKey r "score" with
  | some (.vRat q) => q
  | _ => 0

/-- One iteration of the loop body (lines 80-126), up to the `append`:
`ok none` is a `continue` (join-drop or category filter), `error` is a
raised per-candidate exception, `ok (some r)` appends record `r`. -/
def processCandidate (catFilter : Option String) (w : ℚ) (st : Store)
    (c : Doc × ℚ) : Except String (Option Rec) :=
  let isbn := docKey c.1
  match lookup st isbn with
  | none => .ok none
  | some row =>
    let category := resolvedCategory row
    if truthy catFilter && (pyLower (catFilter.getD "") != pyLower category) then
      .ok none
    else
      match pyFloatCell row.average_rating with
      | .error e => .error e
      | .ok rating =>
        match pyIntCell row.ratings_count with
        | .error e => .error e
        | .ok rc =>
          .ok (some (mkRec isbn c.1 category rating rc ((1 - c.2) + (rating / 5) * w)))

/-- The `for doc, score in results:` loop with its `try/except ... continue`:
an erroring candidate is skipped and the batch continues. -/
def collect (catFilter : Option String) (w : ℚ) (st : Store) :
    List (Doc × ℚ) → List Rec
  | [] => []
  | c :: cs =>
    match processCandidate catFilter w st c with
    | .error _ => collect catFilter w st cs
    | .ok none => collect catFilter w st cs
    | .ok (some r) => r :: collect catFilter w st cs

/-- The comparator realised by `sorted(key=lambda x: x["score"], reverse=True)`:
stable descending order on the score. -/
def recLE (a b : Rec) : Bool := decide (scoreOf b ≤ scoreOf a)

/-- The inference configuration fields `recommend` reads. -/
structure InferenceConfig where
  top_k : ℕ
  popularity_weight : ℚ

/-- `fetch_k = top_k * 5 if category_filter else top_k * 3` (line 75). -/
def fetchK (cfg : InferenceConfig) (catFilter : Option String) : ℕ :=
  if truthy catFilter then cfg.top_k * 5 else cfg.top_k * 3

/-- `HybridRecommender.recommend` (lines 54-135).  The similarity index is
the external collaborator `search`; the query reaches the output only
through it.  Note the Python signature is `(self, query, category_filter=None)`:
there is no tone argument to model. -/
def recommend (cfg : InferenceConfig) (st : Store)
    (search : String → ℕ → List (Doc × ℚ)) (query : String)
    (catFilter : Option String) : List Rec :=
  let results := search query (fetchK cfg catFilter)
  let recs := collect catFilter cfg.popularity_weight st results
  (recs.mergeSort recLE).take cfg.top_k

/-- The store with the `dominant_tone` column blanked out; `recommend`
never reads that column, which the theorems below make precise. -/
def eraseTone (st : Store) : Store :=
  st.map (fun p => (p.1, { p.2 with dominant_tone := none }))

/-! Concrete data, mirroring the fixtures of `src/tests/test_recommender.py`
and the scenarios of the specification. -/

def docA : Doc :=
  ⟨some "1234567890123", some "Book One", some "Author A", some "A great fiction book."⟩

def docB : Doc :=
  ⟨some "9876543210987", some "Book Two", some "Author B", some "A sad non-fiction book."⟩

def rowA : Row :=
  ⟨some "Fiction", some "Fiction", some (.num (9/2)), some (.num 100),
   some "joy", some "http://img1.jpg"⟩

def rowB : Row :=
  ⟨some "Non-Fiction", some "Non-Fiction", some (.num 3), some (.num 50),
   some "sadness", some "http://img2.jpg"⟩

def stEx : Store := [(1234567890123, rowA), (9876543210987, rowB)]

def searchEx : String → ℕ → List (Doc × ℚ) := fun _ _ => [(docA, 1/10), (docB, 2/5)]

def cfgEx : InferenceConfig := ⟨2, 1/2⟩

/-- The record produced for `docA` at distance `0.1`, rating `4.5`, weight
`0.5`: hybrid score `0.9 + 0.45 = 1.35 = 27/20` (kept in the exact shape
the scorer computes it). -/
def recA135 : Rec :=
  mkRec 1234567890123 docA "Fiction" (9/2) (ratTrunc 100) ((1 - 1/10) + ((9/2) / 5) * (1/2))

/-- The record produced for `docB` at distance `0.4`, rating `3.0`, weight
`0.5`: hybrid score `0.6 + 0.3 = 0.9 = 9/10`. -/
def recB09 : Rec :=
  mkRec 9876543210987 docB "Non-Fiction" 3 (ratTrunc 50) ((1 - 2/5) + ((3 : ℚ) / 5) * (1/2))

/-- A candidate document whose identifier is absent from `stEx`. -/
def docGhost : Doc := ⟨some "5555555555555", some "Ghost Book", none, none⟩

/-- A row whose `average_rating` cell is the non-numeric string `"N/A"`:
`float("N/A")` raises `ValueError` inside the loop body. -/
def rowBad : Row :=
  ⟨some "Fiction", some "Fiction", some (.str "N/A"), some (.num 5), none, none⟩

def docBad : Doc := ⟨some "7777777777777", some "Bad Row Book", none, none⟩

def stC6 : Store :=
  [(1234567890123, rowA), (7777777777777, rowBad), (9876543210987, rowB)]

/-- A store that does contain a zero key (nothing in `__init__` or the
cleaning pipeline rejects one). -/
def row0 : Row :=
  ⟨some "Mystery", some "Mystery", some (.num 4), some (.num 7), none, none⟩

def st0 : Store := [(0, row0)]

/-- A candidate whose identifier string contains no digit at all, so it
normalizes to the sentinel `0`. -/
def doc0 : Doc := ⟨some "no-digits!", some "Zero Book", none, none⟩

def search0 : String → ℕ → List (Doc × ℚ) := fun _ _ => [(doc0, 1/2)]

/-- The record the code builds for `doc0` against `st0`:
score `(1 - 1/2) + (4/5) * (1/2) = 9/10`. -/
def rec0 : Rec :=
  mkRec 0 doc0 "Mystery" 4 (ratTrunc 7) ((1 - 1/2) + ((4 : ℚ) / 5) * (1/2))

/-- Two books with identical ratings, retrieved at identical distances:
their hybrid scores tie. -/
def rowTie : Row :=
  ⟨some "Fiction", some "Fiction", some (.num 4), some (.num 10), none, none⟩

def docTieA : Doc := ⟨some "1111111111111", some "Tie One", none, none⟩

def docTieB : Doc := ⟨some "2222222222222", some "Tie Two", none, none⟩

def stTie : Store := [(1111111111111, rowTie), (2222222222222, rowTie)]

def searchTie : String → ℕ → List (Doc × ℚ) :=
  fun _ _ => [(docTieA, 1/10), (docTieB, 1/10)]

/-- Both tie records score `(1 - 1/10) + (4/5) * (1/2) = 13/10`. -/
def recTieA : Rec :=
  mkRec 1111111111111 docTieA "Fiction" 4 (ratTrunc 10) ((1 - 1/10) + ((4 : ℚ) / 5) * (1/2))

def recTieB : Rec :=
  mkRec 2222222222222 docTieB "Fiction" 4 (ratTrunc 10) ((1 - 1/10) + ((4 : ℚ) / 5) * (1/2))

/-- The key list of the result-record dict literal (lines 114-126). -/
def recOutKeys : List String :=
  ["isbn", "title", "authors", "description", "category", "rating",
   "ratings_count", "score", "match_reason"]

end HybridRec

namespace HybridRec

/-! ### General lemmas about the embedded operations -/

theorem mergeSort_one {α : Type} (le : α → α → Bool) (a : α) :
    List.mergeSort [a] le = [a] := by
  simp [List.mergeSort]

theorem mergeSort_pair {α : Type} (le : α → α → Bool) (a b : α) :
    List.mergeSort [a, b] le = if le a b then [a, b] else [b, a] := by
  simp [List.mergeSort, List.merge, List.splitInTwo]

theorem recLE_trans : ∀ a b c : Rec, recLE a b → recLE b c → recLE a c := by
  intro a b c hab hbc
  simp only [recLE, decide_eq_true_eq] at *
  exact le_trans hbc hab

theorem recLE_total : ∀ a b : Rec, recLE a b || recLE b a := by
  intro a b
  simp only [recLE, Bool.or_eq_true, decide_eq_true_eq]
  exact le_total _ _

theorem getKey_mkRec_score (i : ℤ) (d : Doc) (c : String) (q : ℚ) (n : ℤ) (h : ℚ) :
    getKey (mkRec i d c q n h) "score" = some (.vRat h) := rfl

theorem getKey_mkRec_isbn (i : ℤ) (d : Doc) (c : String) (q : ℚ) (n : ℤ) (h : ℚ) :
    getKey (mkRec i d c q n h) "isbn" = some (.vInt i) := rfl

theorem getKey_mkRec_category (i : ℤ) (d : Doc) (c : String) (q : ℚ) (n : ℤ) (h : ℚ) :
    getKey (mkRec i d c q n h) "category" = some (.vStr c) := rfl

theorem getKey_mkRec_thumbnail (i : ℤ) (d : Doc) (c : String) (q : ℚ) (n : ℤ) (h : ℚ) :
    getKey (mkRec i d c q n h) "thumbnail" = none := rfl

theorem keys_mkRec (i : ℤ) (d : Doc) (c : String) (q : ℚ) (n : ℤ) (h : ℚ) :
    (mkRec i d c q n h).map (fun p => p.1) = recOutKeys := rfl

theorem scoreOf_mkRec (i : ℤ) (d : Doc) (c : String) (q : ℚ) (n : ℤ) (h : ℚ) :
    scoreOf (mkRec i d c q n h) = h := rfl

/-- Inversion of one loop iteration: a record is appended exactly when the
join succeeded, the category test passed, and both numeric casts
succeeded; the record is the dict literal with the hybrid score. -/
theorem processCandidate_inv {f : Option String} {w : ℚ} {st : Store}
    {c : Doc × ℚ} {r : Rec}
    (h : processCandidate f w st c = .ok (some r)) :
    ∃ row rating rc, lookup st (docKey c.1) = some row ∧
      pyFloatCell row.average_rating = .ok rating ∧
      pyIntCell row.ratings_count = .ok rc ∧
      (truthy f && (pyLower (f.getD "") != pyLower (resolvedCategory row))) = false ∧
      r = mkRec (docKey c.1) c.1 (resolvedCategory row) rating rc
            ((1 - c.2) + (rating / 5) * w) := by
  unfold processCandidate at h
  dsimp only at h
  cases hlk : lookup st (docKey c.1) with
  | none => rw [hlk] at h; simp at h
  | some row =>
    rw [hlk] at h
    dsimp only at h
    by_cases hc : (truthy f && (pyLower (f.getD "") != pyLower (resolvedCategory row))) = true
    · rw [if_pos hc] at h; simp at h
    · rw [if_neg hc] at h
      cases hra : pyFloatCell row.average_rating with
      | error e => rw [hra] at h; simp at h
      | ok rating =>
        rw [hra] at h
        cases hrc : pyIntCell row.ratings_count with
        | error e => rw [hrc] at h; simp at h
        | ok rc =>
          rw [hrc] at h
          simp only [Except.ok.injEq, Option.some.injEq] at h
          exact ⟨row, rating, rc, rfl, hra, hrc, Bool.eq_false_iff.mpr hc, h.symm⟩

/-- Membership in the collected list is exactly: some candidate of the
batch produced that record. -/
theorem mem_collect {f : Option String} {w : ℚ} {st : Store}
    {l : List (Doc × ℚ)} {r : Rec} :
    r ∈ collect f w st l ↔ ∃ c ∈ l, processCandidate f w st c = .ok (some r) := by
  induction l with
  | nil => simp [collect]
  | cons c cs ih =>
    simp only [collect]
    cases h : processCandidate f w st c with
    | error e => simp [h, ih]
    | ok o =>
      cases o with
      | none => simp [h, ih]
      | some r' =>
        dsimp only
        constructor
        · intro hm
          rcases List.mem_cons.mp hm with rfl | hm'
          · exact ⟨c, List.mem_cons_self _ _, h⟩
          · rcases ih.mp hm' with ⟨c', hc', hp⟩
            exact ⟨c', List.mem_cons_of_mem _ hc', hp⟩
        · rintro ⟨c', hc', hp⟩
          rcases List.mem_cons.mp hc' with rfl | hc''
          · rw [h] at hp
            simp only [Except.ok.injEq, Option.some.injEq] at hp
            exact hp ▸ List.mem_cons_self _ _
          · exact List.mem_cons_of_mem _ (ih.mpr ⟨c', hc'', hp⟩)

theorem collect_append (f : Option String) (w : ℚ) (st : Store)
    (l₁ l₂ : List (Doc × ℚ)) :
    collect f w st (l₁ ++ l₂) = collect f w st l₁ ++ collect f w st l₂ := by
  induction l₁ with
  | nil => simp [collect]
  | cons c cs ih =>
    simp only [List.cons_append, collect]
    cases h : processCandidate f w st c with
    | error e => exact ih
    | ok o =>
      cases o with
      | none => exact ih
      | some r => simp [ih]

end HybridRec

namespace HybridRec

theorem collectEx_eval :
    collect none cfgEx.popularity_weight stEx (searchEx "q" (fetchK cfgEx none)) =
      [recA135, recB09] := rfl

theorem recLE_AB : recLE recA135 recB09 = true := by
  simp only [recLE, recA135, recB09, scoreOf_mkRec, decide_eq_true_eq]
  norm_num

theorem recommendEx_eval : recommend cfgEx stEx searchEx "q" none = [recA135, recB09] := by
  show ((collect none cfgEx.popularity_weight stEx
      (searchEx "q" (fetchK cfgEx none))).mergeSort recLE).take cfgEx.top_k = _
  rw [collectEx_eval, mergeSort_pair, if_pos recLE_AB]
  rfl

theorem recommendExNF_eval :
    recommend cfgEx stEx searchEx "q" (some "Non-Fiction") = [recB09] := by
  show ((collect (some "Non-Fiction") cfgEx.popularity_weight stEx
      (searchEx "q" (fetchK cfgEx (some "Non-Fiction")))).mergeSort recLE).take cfgEx.top_k = _
  rw [show collect (some "Non-Fiction") cfgEx.popularity_weight stEx
      (searchEx "q" (fetchK cfgEx (some "Non-Fiction"))) = [recB09] from rfl,
    mergeSort_one]
  rfl

theorem recommend0_eval : recommend cfgEx st0 search0 "q" none = [rec0] := by
  show ((collect none cfgEx.popularity_weight st0
      (search0 "q" (fetchK cfgEx none))).mergeSort recLE).take cfgEx.top_k = _
  rw [show collect none cfgEx.popularity_weight st0 (search0 "q" (fetchK cfgEx none)) =
      [rec0] from rfl, mergeSort_one]
  rfl

theorem sortTie_eval :
    (collect none cfgEx.popularity_weight stTie
      (searchTie "q" (fetchK cfgEx none))).mergeSort recLE = [recTieA, recTieB] := by
  rw [show collect none cfgEx.popularity_weight stTie (searchTie "q" (fetchK cfgEx none)) =
      [recTieA, recTieB] from rfl,
    mergeSort_pair, if_pos (show recLE recTieA recTieB = true from by
      simp only [recLE, recTieA, recTieB, scoreOf_mkRec]; simp)]

end HybridRec

namespace HybridRec

/-! ### Claim theorems -/

theorem natOfDigits_go (ds : List Char) : ∀ n : ℕ,
    ds.foldl (fun n c => 10 * n + digitVal c) n =
      n * 10 ^ ds.length + Nat.ofDigits 10 ((ds.map digitVal).reverse) := by
  induction ds with
  | nil => intro n; simp [Nat.ofDigits]
  | cons c ds ih =>
    intro n
    simp only [List.foldl_cons, List.map_cons, List.reverse_cons, List.length_cons]
    rw [ih, Nat.ofDigits_append]
    simp only [Nat.ofDigits_singleton, List.length_reverse, List.length_map]
    ring

theorem natOfDigits_eq_ofDigits (ds : List Char) :
    natOfDigits ds = Nat.ofDigits 10 ((ds.map digitVal).reverse) := by
  simpa using natOfDigits_go ds 0

/-- C7: the normalizer keeps exactly the digit characters of the input, in
order, and reads them as a decimal integer (`Nat.ofDigits 10` of the
little-endian digit list); with no digits left it yields `0`; and the
spec's scenario `"978-0-13-468599-1" ↦ 9780134685991` holds. -/
theorem normalizeIsbn_digit_extraction :
    (∀ s : String,
        normalizeIsbn s =
          ((Nat.ofDigits 10 (((digitsOf s).map digitVal).reverse) : ℕ) : ℤ))
    ∧ (∀ s : String, digitsOf s = [] → normalizeIsbn s = 0)
    ∧ normalizeIsbn "978-0-13-468599-1" = 9780134685991 := by
  have key : ∀ s : String,
      normalizeIsbn s =
        ((Nat.ofDigits 10 (((digitsOf s).map digitVal).reverse) : ℕ) : ℤ) := by
    intro s
    simp only [normalizeIsbn]
    by_cases h : (digitsOf s).isEmpty
    · rw [if_pos h]
      rw [List.isEmpty_iff.mp h]
      simp [Nat.ofDigits]
    · rw [if_neg h, natOfDigits_eq_ofDigits]
  refine ⟨key, ?_, by decide⟩
  intro s h
  rw [key s, h]
  simp [Nat.ofDigits]

theorem normalizeIsbn_digit_extraction_witness :
    normalizeIsbn "no digits here!" = 0 ∧
    normalizeIsbn "978-0-13-468599-1" = 9780134685991 :=
  ⟨normalizeIsbn_digit_extraction.2.1 "no digits here!" (by decide),
   normalizeIsbn_digit_extraction.2.2⟩

theorem processCandidate_empty_filter (w : ℚ) (st : Store) (c : Doc × ℚ) :
    processCandidate (some "") w st c = processCandidate none w st c := rfl

theorem collect_empty_filter (w : ℚ) (st : Store) (l : List (Doc × ℚ)) :
    collect (some "") w st l = collect none w st l := by
  induction l with
  | nil => rfl
  | cons c cs ih => simp only [collect, processCandidate_empty_filter, ih]

/-- C10: the filter argument is tested for Python truthiness, not for
`None`: with the empty-string filter the category check and the fan-out
choice behave exactly as with no filter, so `recommend` returns the same
list. -/
theorem recommend_empty_filter (cfg : InferenceConfig) (st : Store)
    (search : String → ℕ → List (Doc × ℚ)) (q : String) :
    recommend cfg st search q (some "") = recommend cfg st search q none := by
  unfold recommend
  dsimp only
  rw [show fetchK cfg (some "") = fetchK cfg none from rfl, collect_empty_filter]

theorem lookup_eraseTone (st : Store) (k : ℤ) :
    lookup (eraseTone st) k =
      (lookup st k).map (fun row => { row with dominant_tone := none }) := by
  induction st with
  | nil => rfl
  | cons p st ih =>
    simp only [eraseTone, List.map_cons, lookup, List.find?]
    by_cases h : (p.1 == k) = true
    · simp [h]
    · simp only [Bool.not_eq_true] at h
      simp only [h]
      simpa [eraseTone, lookup] using ih

theorem processCandidate_eraseTone (f : Option String) (w : ℚ) (st : Store)
    (c : Doc × ℚ) :
    processCandidate f w (eraseTone st) c = processCandidate f w st c := by
  unfold processCandidate
  dsimp only
  rw [lookup_eraseTone]
  cases lookup st (docKey c.1) with
  | none => rfl
  | some row => rfl

theorem collect_eraseTone (f : Option String) (w : ℚ) (st : Store)
    (l : List (Doc × ℚ)) :
    collect f w (eraseTone st) l = collect f w st l := by
  induction l with
  | nil => rfl
  | cons c cs ih => simp only [collect, processCandidate_eraseTone, ih]

/-- C3: `recommend` has no tone parameter at all — its Python signature is
`recommend(self, query, category_filter=None)` — and its body never reads
the `dominant_tone` column: erasing every tone from the store leaves the
output unchanged, and the fixture query returns the `"sadness"` book
`docB` with no way to request a tone. -/
theorem recommend_has_no_tone_parameter :
    (∀ (cfg : InferenceConfig) (st : Store)
        (search : String → ℕ → List (Doc × ℚ)) (q : String) (f : Option String),
        recommend cfg (eraseTone st) search q f = recommend cfg st search q f)
    ∧ recommend cfgEx stEx searchEx "q" none = [recA135, recB09]
    ∧ (lookup stEx 9876543210987).map Row.dominant_tone = some (some "sadness") := by
  refine ⟨?_, recommendEx_eval, rfl⟩
  intro cfg st search q f
  unfold recommend
  dsimp only
  rw [collect_eraseTone]

/-- C6: a per-candidate error (here: a `ValueError` from a numeric cast)
is caught by the loop's `try/except`: that candidate contributes nothing
and the rest of the batch is processed as if it were absent, both at the
loop level and through the whole `recommend` call. -/
theorem candidate_error_skipped :
    (∀ (f : Option String) (w : ℚ) (st : Store) (xs ys : List (Doc × ℚ))
        (c : Doc × ℚ) (e : String),
        processCandidate f w st c = .error e →
        collect f w st (xs ++ c :: ys) = collect f w st (xs ++ ys))
    ∧ (∀ (cfg : InferenceConfig) (st : Store) (q : String) (f : Option String)
        (s₁ s₂ : String → ℕ → List (Doc × ℚ)) (xs ys : List (Doc × ℚ))
        (c : Doc × ℚ) (e : String),
        processCandidate f cfg.popularity_weight st c = .error e →
        s₁ q (fetchK cfg f) = xs ++ c :: ys →
        s₂ q (fetchK cfg f) = xs ++ ys →
        recommend cfg st s₁ q f = recommend cfg st s₂ q f) := by
  have base : ∀ (f : Option String) (w : ℚ) (st : Store) (xs ys : List (Doc × ℚ))
      (c : Doc × ℚ) (e : String),
      processCandidate f w st c = .error e →
      collect f w st (xs ++ c :: ys) = collect f w st (xs ++ ys) := by
    intro f w st xs ys c e h
    rw [collect_append, collect_append]
    congr 1
    simp only [collect, h]
  refine ⟨base, ?_⟩
  intro cfg st q f s₁ s₂ xs ys c e h h1 h2
  unfold recommend
  dsimp only
  rw [h1, h2, base _ _ _ _ _ _ _ h]

theorem candidate_error_skipped_witness :
    collect none cfgEx.popularity_weight stC6
        ([(docA, 1/10)] ++ (docBad, 1/5) :: [(docB, 2/5)]) =
      collect none cfgEx.popularity_weight stC6 ([(docA, 1/10)] ++ [(docB, 2/5)]) :=
  candidate_error_skipped.1 none cfgEx.popularity_weight stC6
    [(docA, 1/10)] [(docB, 2/5)] (docBad, 1/5) "ValueError" rfl

end HybridRec

namespace HybridRec

/-- Inverting membership in the output of `recommend`: every returned
record arises from a retrieved candidate that joined a stored row, passed
the filter, and cast its numeric fields. -/
theorem mem_recommend_inv {cfg : InferenceConfig} {st : Store}
    {search : String → ℕ → List (Doc × ℚ)} {q : String} {f : Option String}
    {r : Rec} (hr : r ∈ recommend cfg st search q f) :
    ∃ c, c ∈ search q (fetchK cfg f) ∧ ∃ row rating rc,
      lookup st (docKey c.1) = some row ∧
      pyFloatCell row.average_rating = .ok rating ∧
      pyIntCell row.ratings_count = .ok rc ∧
      (truthy f && (pyLower (f.getD "") != pyLower (resolvedCategory row))) = false ∧
      r = mkRec (docKey c.1) c.1 (resolvedCategory row) rating rc
            ((1 - c.2) + (rating / 5) * cfg.popularity_weight) := by
  have hr1 : r ∈ ((collect f cfg.popularity_weight st
      (search q (fetchK cfg f))).mergeSort recLE).take cfg.top_k := hr
  have hr2 := List.mem_mergeSort.mp (List.mem_of_mem_take hr1)
  obtain ⟨c, hc, hp⟩ := mem_collect.mp hr2
  obtain ⟨row, rating, rc, h1, h2, h3, h4, h5⟩ := processCandidate_inv hp
  exact ⟨c, hc, row, rating, rc, h1, h2, h3, h4, h5⟩

/-- C5: a retrieved candidate whose normalized identifier misses the
Metadata Store is skipped without an error (`ok none`, not `error`), the
rest of the batch is unaffected, and every record that is returned joined
a stored row. -/
theorem join_drop_invariant :
    (∀ (f : Option String) (w : ℚ) (st : Store) (doc : Doc) (d : ℚ),
        lookup st (docKey doc) = none →
        processCandidate f w st (doc, d) = .ok none)
    ∧ (∀ (f : Option String) (w : ℚ) (st : Store) (xs ys : List (Doc × ℚ))
        (doc : Doc) (d : ℚ),
        lookup st (docKey doc) = none →
        collect f w st (xs ++ (doc, d) :: ys) = collect f w st (xs ++ ys))
    ∧ (∀ (cfg : InferenceConfig) (st : Store)
        (search : String → ℕ → List (Doc × ℚ)) (q : String) (f : Option String)
        (r : Rec), r ∈ recommend cfg st search q f →
        ∃ (k : ℤ) (row : Row), getKey r "isbn" = some (.vInt k) ∧
          lookup st k = some row) := by
  have part1 : ∀ (f : Option String) (w : ℚ) (st : Store) (doc : Doc) (d : ℚ),
      lookup st (docKey doc) = none →
      processCandidate f w st (doc, d) = .ok none := by
    intro f w st doc d h
    unfold processCandidate
    dsimp only
    rw [h]
  refine ⟨part1, ?_, ?_⟩
  · intro f w st xs ys doc d h
    rw [collect_append, collect_append]
    congr 1
    simp only [collect, part1 f w st doc d h]
  · intro cfg st search q f r hr
    obtain ⟨c, _, row, rating, rc, h1, _, _, _, h5⟩ := mem_recommend_inv hr
    refine ⟨docKey c.1, row, ?_, h1⟩
    rw [h5]
    exact getKey_mkRec_isbn _ _ _ _ _ _

theorem join_drop_invariant_witness :
    processCandidate none (1/2) stEx (docGhost, 1/5) = .ok none ∧
    collect none (1/2) stEx ([(docA, 1/10)] ++ (docGhost, 1/5) :: [(docB, 2/5)]) =
      collect none (1/2) stEx ([(docA, 1/10)] ++ [(docB, 2/5)]) ∧
    (∃ (k : ℤ) (row : Row), getKey recA135 "isbn" = some (.vInt k) ∧
      lookup stEx k = some row) :=
  ⟨join_drop_invariant.1 none (1/2) stEx docGhost (1/5) rfl,
   join_drop_invariant.2.1 none (1/2) stEx [(docA, 1/10)] [(docB, 2/5)] docGhost (1/5) rfl,
   join_drop_invariant.2.2 cfgEx stEx searchEx "q" none recA135
     (by rw [recommendEx_eval]; exact List.mem_cons_self _ _)⟩

/-- C1: a surviving candidate at distance `d`, joined to a rating `r`,
with weight `w`, is recorded with score `(1 - d) + (r / 5) * w`; on the
spec's scenario (distances `0.1`, `0.4`, ratings `4.5`, `3.0`, weight
`0.5`) the returned scores are `1.35 = 27/20` and `0.9 = 9/10`. -/
theorem hybrid_score_formula :
    (∀ (f : Option String) (w : ℚ) (st : Store) (c : Doc × ℚ) (r : Rec)
        (row : Row) (rating : ℚ),
        lookup st (docKey c.1) = some row →
        pyFloatCell row.average_rating = .ok rating →
        processCandidate f w st c = .ok (some r) →
        getKey r "score" = some (.vRat ((1 - c.2) + (rating / 5) * w)))
    ∧ (recommend cfgEx stEx searchEx "q" none).map scoreOf = [27/20, 9/10] := by
  constructor
  · intro f w st c r row rating hlk hra hp
    obtain ⟨row', rating', rc, hlk', hra', hrc', hflt, hr0⟩ := processCandidate_inv hp
    rw [hlk] at hlk'
    injection hlk' with hrow
    subst hrow
    rw [hra] at hra'
    injection hra' with hrat
    subst hrat
    rw [hr0]
    exact getKey_mkRec_score _ _ _ _ _ _
  · rw [recommendEx_eval]
    simp only [List.map_cons, List.map_nil, recA135, recB09, scoreOf_mkRec]
    norm_num

theorem hybrid_score_formula_witness :
    getKey recA135 "score" =
      some (.vRat ((1 - (1 : ℚ)/10) + (((9 : ℚ)/2) / 5) * (1/2))) :=
  hybrid_score_formula.1 none (1/2) stEx (docA, 1/10) recA135 rowA (9/2) rfl rfl rfl

/-- C4: with a non-empty category filter, every returned record's
category is the joined row's resolved category (enriched
`simple_category`, else raw `categories`, else `"Uncategorized"`), and it
equals the filter case-insensitively. -/
theorem category_filter_exactness :
    ∀ (cfg : InferenceConfig) (st : Store)
        (search : String → ℕ → List (Doc × ℚ)) (q : String) (fs : String),
      fs ≠ "" →
      ∀ r ∈ recommend cfg st search q (some fs),
        ∃ (k : ℤ) (row : Row),
          getKey r "isbn" = some (.vInt k) ∧ lookup st k = some row ∧
          getKey r "category" = some (.vStr (resolvedCategory row)) ∧
          pyLower (resolvedCategory row) = pyLower fs := by
  intro cfg st search q fs hfs r hr
  obtain ⟨c, _, row, rating, rc, h1, _, _, h4, h5⟩ := mem_recommend_inv hr
  refine ⟨docKey c.1, row, ?_, h1, ?_, ?_⟩
  · rw [h5]
    exact getKey_mkRec_isbn _ _ _ _ _ _
  · rw [h5]
    exact getKey_mkRec_category _ _ _ _ _ _
  · have hemp : fs.isEmpty = false := by
      cases h : fs.isEmpty with
      | false => rfl
      | true => exact absurd ((String.isEmpty_iff fs).mp h) hfs
    have ht : truthy (some fs) = true := by
      simp [truthy, hemp]
    rw [ht, Bool.true_and, Option.getD_some] at h4
    exact (bne_eq_false_iff_eq.mp h4).symm

theorem category_filter_exactness_witness :
    ∃ (k : ℤ) (row : Row),
      getKey recB09 "isbn" = some (.vInt k) ∧ lookup stEx k = some row ∧
      getKey recB09 "category" = some (.vStr (resolvedCategory row)) ∧
      pyLower (resolvedCategory row) = pyLower "Non-Fiction" :=
  category_filter_exactness cfgEx stEx searchEx "q" "Non-Fiction" (by decide) recB09
    (by rw [recommendExNF_eval]; exact List.mem_cons_self _ _)

/-- C8 counterexample: on the fixture query the returned records carry no
`"thumbnail"` key at all — the dict literal at lines 114-126 omits it. -/
theorem result_record_no_thumbnail :
    recommend cfgEx stEx searchEx "q" none = [recA135, recB09] ∧
    getKey recA135 "thumbnail" = none ∧ getKey recB09 "thumbnail" = none :=
  ⟨recommendEx_eval, rfl, rfl⟩

/-- C8 amended: every returned record consists of exactly the keys
`isbn` (the identifier), `title`, `authors`, `description`, `category`,
`rating`, `ratings_count`, `score`, `match_reason` — and in particular
has no `thumbnail` field. -/
theorem result_record_keys :
    ∀ (cfg : InferenceConfig) (st : Store)
        (search : String → ℕ → List (Doc × ℚ)) (q : String) (f : Option String)
        (r : Rec), r ∈ recommend cfg st search q f →
      r.map (fun p => p.1) = recOutKeys ∧ getKey r "thumbnail" = none := by
  intro cfg st search q f r hr
  obtain ⟨c, _, row, rating, rc, _, _, _, _, h5⟩ := mem_recommend_inv hr
  rw [h5]
  exact ⟨keys_mkRec _ _ _ _ _ _, getKey_mkRec_thumbnail _ _ _ _ _ _⟩

theorem result_record_keys_witness :
    recA135.map (fun p => p.1) = recOutKeys ∧ getKey recA135 "thumbnail" = none :=
  result_record_keys cfgEx stEx searchEx "q" none recA135
    (by rw [recommendEx_eval]; exact List.mem_cons_self _ _)

/-- C9 counterexample: nothing rejects a zero key: with a store containing
key `0`, a candidate whose identifier has no digits normalizes to the
"sentinel" `0`, joins that row, and is returned. -/
theorem zero_key_joins :
    docKey doc0 = 0 ∧ recommend cfgEx st0 search0 "q" none = [rec0] ∧
    getKey rec0 "isbn" = some (.vInt 0) :=
  ⟨rfl, recommend0_eval, rfl⟩

/-- C9 amended: provided the store happens to contain no entry with key
`0`, a candidate normalizing to `0` is dropped (`ok none`) and no
returned record carries identifier `0`; the construction itself enforces
no such absence. -/
theorem zero_sentinel_conditional :
    ∀ (cfg : InferenceConfig) (st : Store)
        (search : String → ℕ → List (Doc × ℚ)) (q : String) (f : Option String),
      lookup st 0 = none →
      (∀ (doc : Doc) (d : ℚ) (w : ℚ), docKey doc = 0 →
          processCandidate f w st (doc, d) = .ok none)
      ∧ ∀ r ∈ recommend cfg st search q f, getKey r "isbn" ≠ some (.vInt 0) := by
  intro cfg st search q f h0
  constructor
  · intro doc d w hd
    unfold processCandidate
    dsimp only
    rw [hd, h0]
  · intro r hr hcon
    obtain ⟨c, _, row, rating, rc, h1, _, _, _, h5⟩ := mem_recommend_inv hr
    rw [h5, getKey_mkRec_isbn] at hcon
    simp only [Option.some.injEq, PyVal.vInt.injEq] at hcon
    rw [hcon, h0] at h1
    exact Option.noConfusion h1

theorem zero_sentinel_conditional_witness :
    processCandidate none (1/2) stEx (doc0, 1/2) = .ok none ∧
    getKey recA135 "isbn" ≠ some (.vInt 0) :=
  ⟨(zero_sentinel_conditional cfgEx stEx searchEx "q" none rfl).1 doc0 (1/2) (1/2) rfl,
   (zero_sentinel_conditional cfgEx stEx searchEx "q" none rfl).2 recA135
     (by rw [recommendEx_eval]; exact List.mem_cons_self _ _)⟩

end HybridRec

namespace HybridRec

/-- C2: the output is the surviving scored candidates, stably sorted by
hybrid score descending (`mergeSort` with ties keeping batch order), then
truncated to `top_k`: length is at most `top_k`, the output is sorted, the
sorted list is a permutation of the collected records, equal-score pairs
keep their retrieval order, and nothing kept scores below anything cut by
the truncation. -/
theorem rank_and_truncate :
    ∀ (cfg : InferenceConfig) (st : Store)
        (search : String → ℕ → List (Doc × ℚ)) (q : String) (f : Option String),
      (recommend cfg st search q f).length ≤ cfg.top_k
      ∧ recommend cfg st search q f =
          ((collect f cfg.popularity_weight st (search q (fetchK cfg f))).mergeSort
            recLE).take cfg.top_k
      ∧ ((collect f cfg.popularity_weight st (search q (fetchK cfg f))).mergeSort
          recLE).Perm (collect f cfg.popularity_weight st (search q (fetchK cfg f)))
      ∧ (recommend cfg st search q f).Pairwise (fun a b => scoreOf b ≤ scoreOf a)
      ∧ (∀ a b : Rec, scoreOf a = scoreOf b →
          [a, b].Sublist (collect f cfg.popularity_weight st (search q (fetchK cfg f))) →
          [a, b].Sublist
            ((collect f cfg.popularity_weight st (search q (fetchK cfg f))).mergeSort
              recLE))
      ∧ ∀ x ∈ recommend cfg st search q f,
          ∀ y ∈ ((collect f cfg.popularity_weight st
              (search q (fetchK cfg f))).mergeSort recLE).drop cfg.top_k,
            scoreOf y ≤ scoreOf x := by
  intro cfg st search q f
  set L := collect f cfg.popularity_weight st (search q (fetchK cfg f)) with hL
  have hdef : recommend cfg st search q f = (L.mergeSort recLE).take cfg.top_k := rfl
  have hsorted : (L.mergeSort recLE).Pairwise (fun a b => recLE a b = true) :=
    List.sorted_mergeSort recLE_trans recLE_total L
  have hsorted' : (L.mergeSort recLE).Pairwise
      (fun a b : Rec => scoreOf b ≤ scoreOf a) := by
    refine hsorted.imp ?_
    intro a b h
    exact of_decide_eq_true h
  refine ⟨?_, hdef, List.mergeSort_perm L recLE, ?_, ?_, ?_⟩
  · rw [hdef]
    calc (List.take cfg.top_k (L.mergeSort recLE)).length
        = min cfg.top_k (L.mergeSort recLE).length := List.length_take _ _
      _ ≤ cfg.top_k := min_le_left _ _
  · rw [hdef]
    exact List.Pairwise.sublist (List.take_sublist _ _) hsorted'
  · intro ra rb hs hsub
    refine List.sublist_mergeSort recLE_trans recLE_total ?_ hsub
    refine List.pairwise_cons.mpr ⟨?_, by simp⟩
    intro y hy
    rw [List.mem_singleton] at hy
    subst hy
    simp [recLE, hs]
  · intro x hx y hy
    have hx' : x ∈ (L.mergeSort recLE).take cfg.top_k := by
      rw [← hdef]; exact hx
    have hall := hsorted'
    rw [← List.take_append_drop cfg.top_k (L.mergeSort recLE)] at hall
    exact (List.pairwise_append.mp hall).2.2 x hx' y hy

theorem rank_and_truncate_witness :
    [recTieA, recTieB].Sublist
      ((collect none cfgEx.popularity_weight stTie
        (searchTie "q" (fetchK cfgEx none))).mergeSort recLE) :=
  (rank_and_truncate cfgEx stTie searchTie "q" none).2.2.2.2.1 recTieA recTieB rfl
    (by rw [show collect none cfgEx.popularity_weight stTie
          (searchTie "q" (fetchK cfgEx none)) = [recTieA, recTieB] from rfl])

end HybridRec
